import Mathlib

/-!
Verification of the provider-acquisition and batch-submission core of the
rehab-ingestion repository, as a shallow embedding in Lean 4.

The embedded code comes from:
  packages/npi-puller/rehab_npi_puller/npi_api_client.py
  packages/npi-puller/rehab_npi_puller/npi_csv_download.py
  packages/common/rehab_common/rehab_sdk.py
Python dictionaries become structures, dict lookups become Option-valued
lookups, pandas cells (which are either strings or NaN when read with
dtype=str) become the inductive type CsvVal, and exceptions become Except.
-/

namespace RehabIngestion

/-! ### Python string primitives used by the sources -/

/-- Python whitespace characters relevant to str.strip (the six ASCII
whitespace characters). -/
def isSpaceChar (c : Char) : Bool :=
  c = ' ' || c = '\t' || c = '\n' || c = '\r' || c = '\x0b' || c = '\x0c'

/-- Strip ASCII whitespace from both ends of a character list. -/
def stripChars (l : List Char) : List Char :=
  ((l.dropWhile isSpaceChar).reverse.dropWhile isSpaceChar).reverse

/-- Embedding of Python str.strip() (no-argument form). -/
def pyStrip (s : String) : String :=
  ⟨stripChars s.data⟩

/-- Embedding of Python " ".join(parts). -/
def joinWithSpace : List String → String
  | [] => ""
  | [p] => p
  | p :: q :: rest => p ++ " " ++ joinWithSpace (q :: rest)

/-- Embedding of Python `a or b` on optional strings: the first operand is
returned when it is truthy (present and non-empty), else the second. -/
def pyOrStr (a b : Option String) : Option String :=
  if a.getD "" ≠ "" then a else b

/-- Embedding of Python str(x) on an optional string: str(None) is the
four-character string "None". -/
def pyStrOfOpt : Option String → String
  | some s => s
  | none => "None"

/-! ### CSV cell values

pandas.read_csv with dtype=str yields cells that are either genuine
strings or the float NaN (for empty cells).  NaN is truthy in Python and
str(NaN) is the string "nan"; both facts are load-bearing in
parse_csv_to_providers. -/

/-- A cell of the bulk-extract dataframe: a string or NaN. -/
inductive CsvVal where
  | strv (v : String)
  | nan
deriving DecidableEq, Repr

/-- Python truthiness of a dataframe cell: a string is truthy iff
non-empty; NaN is truthy. -/
def truthyV : CsvVal → Bool
  | .strv v => v ≠ ""
  | .nan => true

/-- Python str() of a dataframe cell: str(NaN) = "nan". -/
def strV : CsvVal → String
  | .strv v => v
  | .nan => "nan"

/-- Python str() of row.get(col) (no default): an absent column yields
None, whose str() is "None". -/
def pyStrOfCell : Option CsvVal → String
  | some v => strV v
  | none => "None"

/-- npi_csv_download.truncate_columns cell update:
x[:max_len] if isinstance(x, str) else x. -/
def truncVal : CsvVal → Nat → CsvVal
  | .strv v, m => .strv (v.take m)
  | .nan, _ => .nan

/-! ### Authorized-official composition (both normalizers)

npi_api_client.py lines 188-192 (live API) and npi_csv_download.py lines
213-221 (bulk extract). -/

/-- Live-API composition of the authorized official
(npi_api_client.py lines 188-192): only the first and last name keys are
read; if either is truthy the result is f"{first} {last}".strip(),
else None. -/
def apiOfficial (first last : String) : Option String :=
  if first ≠ "" ∨ last ≠ "" then some (pyStrip (first ++ " " ++ last)) else none

/-- Bulk-extract composition of the authorized official
(npi_csv_download.py lines 213-221 and the
`official if official else None` at line 233): when first or last is
truthy, join the stripped str() of first, middle, last, dropping parts
that are empty or "nan"; an empty join (and the no-truthy-name case)
yields None. -/
def csvOfficial (first middle last : CsvVal) : Option String :=
  let official : Option String :=
    if truthyV first || truthyV last then
      some (joinWithSpace
        (([strV first, strV middle, strV last].map pyStrip).filter
          (fun p => p ≠ "" && p ≠ "nan")))
    else none
  match official with
  | some s => if s = "" then none else some s
  | none => none

/-- Spec-side definition, written from the spec's words for comparison
with the code ("authorized_official equals the space-joined,
empty-part-stripped concatenation, or None if all parts are absent"):
join the non-empty parts with single spaces, None when none remain. -/
def specOfficialJoin (parts : List String) : Option String :=
  let ps := parts.filter (fun p => p ≠ "")
  if ps.isEmpty then none else some (joinWithSpace ps)

/-! ### Live-API raw record model and NPIClient._parse_npi_result
(npi_api_client.py lines 154-206)

JSON values reached by the parser are modelled as optional strings
(absent key ↦ none); the "basic" sub-dictionary may carry an authorized
official middle-name key, which the parser never reads. -/

structure NpiBasic where
  organization_name : Option String := none
  name : Option String := none
  last_updated : Option String := none
  authorized_official_first_name : Option String := none
  authorized_official_middle_name : Option String := none
  authorized_official_last_name : Option String := none
deriving DecidableEq, Repr

structure NpiTaxonomy where
  primary : Bool := false
  code : Option String := none
  desc : Option String := none
deriving DecidableEq, Repr

structure NpiAddress where
  address_purpose : Option String := none
  address_1 : Option String := none
  city : Option String := none
  state : Option String := none
  postal_code : Option String := none
  telephone_number : Option String := none
deriving DecidableEq, Repr

/-- A raw result from the NPI registry API, restricted to the keys the
parser reads (plus the middle-name key it ignores). -/
structure NpiResult where
  number : Option String := none
  basic : NpiBasic := {}
  taxonomies : List NpiTaxonomy := []
  addresses : List NpiAddress := []
deriving DecidableEq, Repr

/-- The standardized provider dictionary built by _parse_npi_result. -/
structure ApiProvider where
  npi_number : String
  organization_name : Option String
  address : String
  city : String
  state : String
  postal_code : String
  phone : String
  taxonomy_code : Option String
  taxonomy_desc : Option String
  authorized_official : Option String
  last_updated : Option String
deriving DecidableEq, Repr

/-- Taxonomy selection (lines 170-172): first entry flagged primary,
else the first entry of a non-empty list, else none. -/
def selectTaxonomy (ts : List NpiTaxonomy) : Option NpiTaxonomy :=
  match ts.find? (fun t => t.primary) with
  | some t => some t
  | none => ts.head?

/-- Address selection (lines 177-179): first entry whose address_purpose
is "LOCATION", else the first entry of a non-empty list, else none. -/
def selectAddress (addrs : List NpiAddress) : Option NpiAddress :=
  match addrs.find? (fun a => a.address_purpose == some "LOCATION") with
  | some a => some a
  | none => addrs.head?

/-- Embedding of NPIClient._parse_npi_result (lines 154-206).  Note
npi_number = str(result.get("number")): a missing "number" key yields
the string "None"; no exception is raised anywhere in the function. -/
def parse_npi_result (r : NpiResult) : ApiProvider :=
  let basic := r.basic
  let taxonomy := selectTaxonomy r.taxonomies
  let address := selectAddress r.addresses
  { npi_number := pyStrOfOpt r.number
    organization_name := pyOrStr basic.organization_name basic.name
    address := (address.bind (fun a => a.address_1)).getD ""
    city := (address.bind (fun a => a.city)).getD ""
    state := (address.bind (fun a => a.state)).getD ""
    postal_code := (address.bind (fun a => a.postal_code)).getD ""
    phone := (address.bind (fun a => a.telephone_number)).getD ""
    taxonomy_code := taxonomy.bind (fun t => t.code)
    taxonomy_desc := taxonomy.bind (fun t => t.desc)
    authorized_official :=
      apiOfficial (basic.authorized_official_first_name.getD "")
        (basic.authorized_official_last_name.getD "")
    last_updated := basic.last_updated }

/-! ### Fetch coordinator NPIClient.fetch_all_providers
(npi_api_client.py lines 227-244)

The body is `if method == "api": ... elif method == "csv": ...` with no
else branch: any other mode string falls off the end of the function,
which in Python returns None — no exception, no delegate call. -/

/-- What a call to fetch_all_providers does with a given mode string. -/
inductive DispatchOutcome where
  /-- Delegates to fetch_all_providers_from_api. -/
  | viaApi
  /-- Delegates to fetch_all_providers_from_csv. -/
  | viaCsv
  /-- Falls through both branches and returns None; neither acquisition
  path is invoked and nothing is raised. -/
  | returnedNone
deriving DecidableEq, Repr

/-- Embedding of NPIClient.fetch_all_providers dispatch (lines 241-244). -/
def fetch_all_providers (method : String) : DispatchOutcome :=
  if method = "api" then .viaApi
  else if method = "csv" then .viaCsv
  else .returnedNone

/-! ### Archive-entry selection, _extract_csv_from_zip
(npi_csv_download.py lines 107-123)

CSV_REGEX = ^npidata_pfile_\d{8}-\d{8}\.csv$ with IGNORECASE;
re.match anchors at the start, and the trailing $ also accepts one
trailing newline. -/

/-- Consume an expected literal from the front of a character list. -/
def consumeLit : List Char → List Char → Option (List Char)
  | [], rest => some rest
  | _, [] => none
  | e :: es, c :: cs => if c = e then consumeLit es cs else none

/-- Consume exactly n decimal digits from the front. -/
def consumeDigits : Nat → List Char → Option (List Char)
  | 0, rest => some rest
  | _ + 1, [] => none
  | n + 1, c :: cs => if c.isDigit then consumeDigits n cs else none

/-- Anchored match of npidata_pfile_\d{8}-\d{8}\.csv against a
lowercased character list. -/
def matchCore (cs : List Char) : Bool :=
  match consumeLit "npidata_pfile_".toList cs with
  | none => false
  | some r1 =>
    match consumeDigits 8 r1 with
    | none => false
    | some r2 =>
      match consumeLit "-".toList r2 with
      | none => false
      | some r3 =>
        match consumeDigits 8 r3 with
        | none => false
        | some r4 =>
          match consumeLit ".csv".toList r4 with
          | none => false
          | some r5 => r5.isEmpty

/-- Embedding of CSV_REGEX.match(name): case-insensitive, anchored at
both ends, with $ also accepting a single trailing newline. -/
def matchCsvName (name : String) : Bool :=
  let cs := name.data.map Char.toLower
  matchCore cs || (match cs.getLast? with
    | some c => c = '\n' && matchCore cs.dropLast
    | none => false)

/-- Embedding of _extract_csv_from_zip restricted to its decision logic:
filter the archive's name list through CSV_REGEX; raise FileNotFoundError
when nothing matches, otherwise extract matched_files[0].  The returned
string is the name of the entry that gets extracted. -/
def extractCsvFromZip (names : List String) : Except String String :=
  let matched := names.filter matchCsvName
  match matched with
  | [] => .error "No matching npidata_pfile CSV found in ZIP."
  | f :: _ => .ok f

/-! ### Bulk-extract truncate-and-map stage
(npi_csv_download.py: truncate_columns, lines 44-56, and the body of
parse_csv_to_providers after filter_and_deduplicate, lines 205-239)

A dataframe row is an association list from column names to cells; all
rows of one dataframe share the same column set, so the per-dataframe
test `col in df.columns` is applied per row. -/

/-- One dataframe row: column name to cell value. -/
def Row : Type := List (String × CsvVal)

/-- row.get(col): the cell when the column is present, else None. -/
def rowGet (row : Row) (col : String) : Option CsvVal :=
  (row.find? (fun kv => kv.1 == col)).map (fun kv => kv.2)

/-- row.get(col, default). -/
def rowGetD (row : Row) (col : String) (d : CsvVal) : CsvVal :=
  (rowGet row col).getD d

/-- The max_lengths table of truncate_columns (lines 45-52): note the
keys are the canonical attribute names, not the bulk-file column names. -/
def max_lengths : List (String × Nat) :=
  [("npi_number", 10), ("city", 255), ("state", 255),
   ("postal_code", 255), ("phone", 255), ("taxonomy_code", 255)]

/-- Truncate the cells of one named column of a row (no-op when the
column is absent, matching `if col in df.columns`). -/
def applyTrunc (row : Row) (col : String) (m : Nat) : Row :=
  row.map (fun kv => if kv.1 == col then (kv.1, truncVal kv.2 m) else kv)

/-- Embedding of truncate_columns (lines 44-56) over a list of rows. -/
def truncate_columns (df : List Row) : List Row :=
  df.map (fun row => max_lengths.foldl (fun r cm => applyTrunc r cm.1 cm.2) row)

/-- The provider dictionary built per row by parse_csv_to_providers
(lines 223-235).  Cells are passed through unchanged except npi_number
(str()) and authorized_official (composed). -/
structure CsvProviderRecord where
  npi_number : String
  organization_name : Option CsvVal
  address : Option CsvVal
  city : Option CsvVal
  state : Option CsvVal
  postal_code : Option CsvVal
  phone : Option CsvVal
  taxonomy_code : Option CsvVal
  taxonomy_desc : Option CsvVal
  authorized_official : Option String
  last_updated : Option CsvVal
deriving DecidableEq, Repr

/-- Per-row conversion of parse_csv_to_providers (lines 212-236). -/
def rowToProvider (row : Row) : CsvProviderRecord :=
  let first := rowGetD row "Authorized Official First Name" (.strv "")
  let middle := rowGetD row "Authorized Official Middle Name" (.strv "")
  let last := rowGetD row "Authorized Official Last Name" (.strv "")
  { npi_number := pyStrOfCell (rowGet row "NPI")
    organization_name := rowGet row "Provider Organization Name (Legal Business Name)"
    address := rowGet row "Provider First Line Business Mailing Address"
    city := rowGet row "Provider Business Mailing Address City Name"
    state := rowGet row "Provider Business Mailing Address State Name"
    postal_code := rowGet row "Provider Business Mailing Address Postal Code"
    phone := rowGet row "Provider Business Mailing Address Telephone Number"
    taxonomy_code := rowGet row "Healthcare Provider Taxonomy Code_1"
    taxonomy_desc := rowGet row "Healthcare Provider Taxonomy Group_1"
    authorized_official := csvOfficial first middle last
    last_updated := rowGet row "Last Update Date" }

/-- The truncate-and-map stage of parse_csv_to_providers (lines 205-239):
truncate_columns is applied to the deduplicated dataframe, then each row
is mapped to a provider record.  (The empty-dataframe early return is the
map over the empty list.) -/
def truncateAndMapStage (df : List Row) : List CsvProviderRecord :=
  (truncate_columns df).map rowToProvider

/-! ### Live-API pagination loop
(npi_api_client.py, fetch_all_providers_from_api lines 108-146, class
constants lines 20-30)

The per-classification loop is embedded over the stream of all records
the registry holds for one classification; the page a request with a
given skip returns is the 200-record slice of that stream.  The loop
value is (records fetched in request order, number of page requests
issued). -/

def MAX_RESULTS_PER_REQUEST : Nat := 200
def MAX_SKIP : Nat := 1000
def MAX_TOTAL_RESULTS : Nat := 1200
def MAX_REQUESTS : Nat := 6

/-- The page returned for a request at a given skip. -/
def pageAt (stream : List α) (skip : Nat) : List α :=
  (stream.drop skip).take MAX_RESULTS_PER_REQUEST

/-- One classification's request loop,
`for request_num in range(MAX_REQUESTS)` (lines 113-146): break on an
empty page, after a short page, or once skip exceeds MAX_SKIP or the
fetched total reaches MAX_TOTAL_RESULTS after extending. -/
def loopGo (stream : List α) : Nat → Nat → Nat → List α × Nat
  | 0, _, _ => ([], 0)
  | fuel + 1, skip, total =>
    let results := pageAt stream skip
    if results.isEmpty then ([], 1)
    else if results.length < MAX_RESULTS_PER_REQUEST then (results, 1)
    else if skip + MAX_RESULTS_PER_REQUEST > MAX_SKIP ∨
        total + results.length ≥ MAX_TOTAL_RESULTS then (results, 1)
    else
      let rest := loopGo stream fuel (skip + MAX_RESULTS_PER_REQUEST)
        (total + results.length)
      (results ++ rest.1, rest.2 + 1)

/-- The per-classification fetch: loop from skip 0, total 0, with at most
MAX_REQUESTS page requests. -/
def fetchClassification (stream : List α) : List α × Nat :=
  loopGo stream MAX_REQUESTS 0 0

/-! ### Exponential backoff, NPIClient._calculate_backoff_delay
(npi_api_client.py lines 90-96)

delay = min(INITIAL_RETRY_DELAY * 2**retry_count, MAX_RETRY_DELAY);
jitter = random.uniform(0, delay * 0.1); return delay + jitter.
Real arithmetic is modelled over the rationals, the sampled jitter as a
parameter confined to the interval random.uniform draws from. -/

def INITIAL_RETRY_DELAY : ℚ := 1
def MAX_RETRY_DELAY : ℚ := 32

/-- The pre-jitter delay min(1 * 2^n, 32). -/
def backoffBase (retry_count : Nat) : ℚ :=
  min (INITIAL_RETRY_DELAY * 2 ^ retry_count) MAX_RETRY_DELAY

/-- Embedding of _calculate_backoff_delay with the jitter sample made
explicit. -/
def backoffDelay (retry_count : Nat) (jitter : ℚ) : ℚ :=
  backoffBase retry_count + jitter

/-! ### Batch submission layer, rehab_common/rehab_sdk.py
(batch_create_rehabs, lines 22-49)

The downstream GraphQL call is abstracted as a function from a chunk to
Except: ok carries resp.create_many_rehabs (whose length is the created
count), error is any raised exception — the bare `except ... Exception`
catches everything, so the embedded layer is total. -/

/-- The aggregate returned by batch_create_rehabs. -/
structure BatchResult (γ : Type) where
  total_successes : Nat
  total_errors : Nat
  responses : List (List γ)
deriving DecidableEq, Repr

/-- Slicing loop for chunksOf, structurally recursive on a fuel that is
kept at or above the length of the remaining list. -/
def chunksGo (size : Nat) : Nat → List α → List (List α)
  | _, [] => []
  | 0, _ :: _ => []
  | fuel + 1, a :: rest =>
    (a :: rest).take size :: chunksGo size fuel ((a :: rest).drop size)

/-- data[start:start+chunk_size] slices for start in
range(0, len(data), chunk_size).  (Python raises on a zero step; chunk
sizes of interest are positive.) -/
def chunksOf (size : Nat) (l : List α) : List (List α) :=
  if size = 0 then [] else chunksGo size l.length l

/-- The chunk loop of batch_create_rehabs (lines 29-39), threading the
accumulated result through: on ok append the response and add its created
count, on any error add one to total_errors and continue. -/
def batchGo (submit : List α → Except String (List γ)) :
    List (List α) → BatchResult γ → BatchResult γ
  | [], acc => acc
  | c :: cs, acc =>
    match submit c with
    | .ok resp =>
      batchGo submit cs
        { total_successes := acc.total_successes + resp.length
          total_errors := acc.total_errors
          responses := acc.responses ++ [resp] }
    | .error _ =>
      batchGo submit cs
        { total_successes := acc.total_successes
          total_errors := acc.total_errors + 1
          responses := acc.responses }

/-- Embedding of batch_create_rehabs (lines 22-49). -/
def batch_create_rehabs (submit : List α → Except String (List γ))
    (data : List α) (chunk_size : Nat) : BatchResult γ :=
  batchGo submit (chunksOf chunk_size data)
    { total_successes := 0, total_errors := 0, responses := [] }

/-! ## Theorems about the embedded code -/

/-- C1: For every mode selector other than "api" and "csv",
NPIClient.fetch_all_providers is claimed to raise an invalid-argument
error before invoking either acquisition path.  The code has no else
branch: the call falls through and returns None.  This theorem evaluates
the dispatch at the failing input "invalid" (the input of the repository's
own test_fetch_all_providers_invalid_method, which expects
ValueError("Invalid fetch method") and therefore fails), and shows the
same for every unknown mode. -/
theorem claim_C1_eval :
    fetch_all_providers "invalid" = DispatchOutcome.returnedNone ∧
    ∀ m : String, m ≠ "api" → m ≠ "csv" →
      fetch_all_providers m = DispatchOutcome.returnedNone := by
  refine ⟨rfl, ?_⟩
  intro m h1 h2
  simp [fetch_all_providers, h1, h2]

/-- Witness for claim_C1_eval: its universally quantified part applied at
the concrete unknown mode "bulk". -/
theorem claim_C1_witness :
    fetch_all_providers "bulk" = DispatchOutcome.returnedNone :=
  claim_C1_eval.2 "bulk" (by decide) (by decide)

/-- A deduplicated bulk row whose NPI cell is 13 characters long. -/
def rowLongNpi : Row :=
  [("NPI", .strv "1234567890123"),
   ("Provider Organization Name (Legal Business Name)", .strv "Org"),
   ("Provider Business Mailing Address City Name", .strv "Anytown"),
   ("Authorized Official First Name", .strv "John"),
   ("Authorized Official Last Name", .strv "Doe")]

/-- C2: the truncate-and-map stage is claimed to truncate over-length NPI
values to exactly 10 characters.  truncate_columns is keyed on the
canonical attribute names (npi_number, city, ...) but runs before the
column mapping, while the dataframe still carries the bulk-file column
names (NPI, ...), so it truncates nothing: a 13-character NPI survives
to the produced record unchanged.  This evaluates the stage at such a
row. -/
theorem claim_C2_eval :
    ((truncateAndMapStage [rowLongNpi]).map fun p => p.npi_number) =
      ["1234567890123"] ∧
    ¬ ("1234567890123").length = 10 := by
  refine ⟨by decide, by decide⟩

/-- Two archive name lists used to settle C3. -/
def twoMatchingNames : List String :=
  ["npidata_pfile_20240101-20240131.csv", "npidata_pfile_20240201-20240228.csv"]

/-- C3 counterexample: the claim says extraction fails whenever more than
one archive entry matches the 8-digit-dash-8-digit CSV pattern.  With two
matching entries, _extract_csv_from_zip does not fail: it extracts the
first match. -/
theorem claim_C3_counterexample :
    (twoMatchingNames.filter matchCsvName).length = 2 ∧
    extractCsvFromZip twoMatchingNames =
      .ok "npidata_pfile_20240101-20240131.csv" :=
  ⟨by decide, rfl⟩

/-- C3 amended: extraction fails with the missing-dataset error exactly
when zero entries match the pattern; when one or more entries match, it
succeeds and extracts the first matching entry in archive order. -/
theorem claim_C3_amended (names : List String) :
    ((∃ e, extractCsvFromZip names = .error e) ↔
      names.filter matchCsvName = []) ∧
    (∀ f rest, names.filter matchCsvName = f :: rest →
      extractCsvFromZip names = .ok f) := by
  unfold extractCsvFromZip
  cases h : names.filter matchCsvName with
  | nil => simp [h]
  | cons f rest => simp [h]

/-- Witness for claim_C3_amended: applied at a one-entry archive. -/
theorem claim_C3_witness :
    extractCsvFromZip ["npidata_pfile_20240101-20240131.csv"] =
      .ok "npidata_pfile_20240101-20240131.csv" :=
  (claim_C3_amended ["npidata_pfile_20240101-20240131.csv"]).2
    "npidata_pfile_20240101-20240131.csv" [] (by decide)

/-- C4: normalization of a live-API record with no "number" key is
claimed to raise a data-shape error.  _parse_npi_result raises nothing:
npi_number = str(result.get("number")) stringifies the missing value, so
the record below is produced, with the literal string "None" as its
identifier.  This evaluates the parser at the failing input. -/
theorem claim_C4_eval :
    parse_npi_result { number := none } =
      { npi_number := "None", organization_name := none, address := "",
        city := "", state := "", postal_code := "", phone := "",
        taxonomy_code := none, taxonomy_desc := none,
        authorized_official := none, last_updated := none } := by
  decide

/-- C7: for retry attempt n and any jitter sample drawn from
uniform(0, delay * 0.1), the backoff delay lies in
[base * 2^n, base * 2^n * 1.1] whenever base * 2^n ≤ max_delay, and never
exceeds max_delay * 1.1 (base = 1, max_delay = 32). -/
theorem claim_C7_backoff (n : Nat) (j : ℚ) (h0 : 0 ≤ j)
    (h1 : j ≤ backoffBase n * (1 / 10)) :
    ((2 : ℚ) ^ n ≤ 32 →
      (2 : ℚ) ^ n ≤ backoffDelay n j ∧
      backoffDelay n j ≤ (2 : ℚ) ^ n * (11 / 10)) ∧
    backoffDelay n j ≤ 32 * (11 / 10) := by
  have hbase_le : backoffBase n ≤ 32 := by
    simp [backoffBase, MAX_RETRY_DELAY]
  constructor
  · intro h2n
    have hbase : backoffBase n = 2 ^ n := by
      simp [backoffBase, INITIAL_RETRY_DELAY, MAX_RETRY_DELAY]
      exact h2n
    rw [hbase] at h1
    constructor
    · simp [backoffDelay, hbase]
      linarith
    · simp [backoffDelay, hbase]
      linarith
  · simp [backoffDelay]
    nlinarith [hbase_le, h1, h0]

/-- Witness for claim_C7_backoff: retry attempt 0 with zero jitter. -/
theorem claim_C7_witness :
    (2 : ℚ) ^ 0 ≤ backoffDelay 0 0 ∧
    backoffDelay 0 0 ≤ (2 : ℚ) ^ 0 * (11 / 10) :=
  (claim_C7_backoff 0 0 (le_refl 0)
    (by norm_num [backoffBase, INITIAL_RETRY_DELAY, MAX_RETRY_DELAY])).1
    (by norm_num)

/-- C10: when normalizing a live-API record, the five address-derived
fields come from the first address whose address_purpose is "LOCATION";
when no entry has that purpose but the list is non-empty, from the first
entry; when the list is empty, all five are the empty string. -/
theorem claim_C10_address (r : NpiResult) :
    (∀ a, r.addresses.find?
        (fun x => x.address_purpose == some "LOCATION") = some a →
      (parse_npi_result r).address = a.address_1.getD "" ∧
      (parse_npi_result r).city = a.city.getD "" ∧
      (parse_npi_result r).state = a.state.getD "" ∧
      (parse_npi_result r).postal_code = a.postal_code.getD "" ∧
      (parse_npi_result r).phone = a.telephone_number.getD "") ∧
    (r.addresses.find?
        (fun x => x.address_purpose == some "LOCATION") = none →
      ∀ a rest, r.addresses = a :: rest →
      (parse_npi_result r).address = a.address_1.getD "" ∧
      (parse_npi_result r).city = a.city.getD "" ∧
      (parse_npi_result r).state = a.state.getD "" ∧
      (parse_npi_result r).postal_code = a.postal_code.getD "" ∧
      (parse_npi_result r).phone = a.telephone_number.getD "") ∧
    (r.addresses = [] →
      (parse_npi_result r).address = "" ∧
      (parse_npi_result r).city = "" ∧
      (parse_npi_result r).state = "" ∧
      (parse_npi_result r).postal_code = "" ∧
      (parse_npi_result r).phone = "") := by
  refine ⟨?_, ?_, ?_⟩
  · intro a ha
    simp [parse_npi_result, selectAddress, ha]
  · intro hnone a rest haddr
    rw [haddr] at hnone
    simp [parse_npi_result, selectAddress, haddr, hnone]
  · intro hempty
    have hfind : r.addresses.find?
        (fun x => x.address_purpose == some "LOCATION") = none := by
      rw [hempty]; rfl
    simp [parse_npi_result, selectAddress, hfind, hempty]

/-! ### Lemmas about stripping, for the authorized-official claims -/

theorem length_dropWhile_le (p : α → Bool) (l : List α) :
    (l.dropWhile p).length ≤ l.length := by
  induction l with
  | nil => simp
  | cons a t ih =>
    by_cases h : p a
    · rw [List.dropWhile_cons, if_pos h]
      exact le_trans ih (Nat.le_succ _)
    · rw [List.dropWhile_cons, if_neg h]

theorem dropWhile_eq_self_of_length {p : α → Bool} {l : List α}
    (h : (l.dropWhile p).length = l.length) : l.dropWhile p = l := by
  cases l with
  | nil => simp
  | cons a t =>
    by_cases hp : p a
    · exfalso
      have h1 := length_dropWhile_le p t
      rw [List.dropWhile_cons, if_pos hp] at h
      simp at h
      omega
    · rw [List.dropWhile_cons, if_neg hp]

/-- A list equal to its own strip is already stripped at both ends. -/
theorem trim_parts {l : List Char} (h : stripChars l = l) :
    l.dropWhile isSpaceChar = l ∧
    l.reverse.dropWhile isSpaceChar = l.reverse := by
  have hlen : (stripChars l).length = l.length := by rw [h]
  have hlen2 : (stripChars l).length ≤ (l.dropWhile isSpaceChar).length := by
    unfold stripChars
    rw [List.length_reverse]
    calc ((l.dropWhile isSpaceChar).reverse.dropWhile isSpaceChar).length
        ≤ (l.dropWhile isSpaceChar).reverse.length :=
          length_dropWhile_le _ _
      _ = (l.dropWhile isSpaceChar).length := List.length_reverse _
  have hfront : l.dropWhile isSpaceChar = l := by
    apply dropWhile_eq_self_of_length
    have := length_dropWhile_le isSpaceChar l
    omega
  refine ⟨hfront, ?_⟩
  have h2 : ((l.reverse.dropWhile isSpaceChar).reverse) = l := by
    calc (l.reverse.dropWhile isSpaceChar).reverse
        = ((l.dropWhile isSpaceChar).reverse.dropWhile isSpaceChar).reverse := by
          rw [hfront]
      _ = stripChars l := rfl
      _ = l := h
  have h3 := congrArg List.reverse h2
  rw [List.reverse_reverse] at h3
  exact h3

/-- A stripped non-empty list has a non-space head. -/
theorem not_space_head {c : Char} {t : List Char}
    (h : (c :: t).dropWhile isSpaceChar = c :: t) : isSpaceChar c = false := by
  by_cases hp : isSpaceChar c
  · exfalso
    rw [List.dropWhile_cons, if_pos hp] at h
    have h1 := length_dropWhile_le isSpaceChar t
    have h2 := congrArg List.length h
    simp at h2
    omega
  · simpa using hp

/-- Prepending to a front-stripped non-empty list leaves dropWhile inert. -/
theorem dropWhile_append_eq_self {l m : List Char}
    (hl : l.dropWhile isSpaceChar = l) (hne : l ≠ []) :
    (l ++ m).dropWhile isSpaceChar = l ++ m := by
  cases l with
  | nil => exact absurd rfl hne
  | cons c t =>
    have hc := not_space_head hl
    rw [List.cons_append, List.dropWhile_cons, if_neg (by simp [hc])]

theorem stripChars_cons_space (l : List Char) :
    stripChars (' ' :: l) = stripChars l := by
  unfold stripChars
  rw [List.dropWhile_cons, if_pos (by decide)]

/-- Appending one space to a stripped non-empty list strips back to it. -/
theorem stripChars_append_space {l : List Char} (h : stripChars l = l)
    (hne : l ≠ []) : stripChars (l ++ [' ']) = l := by
  obtain ⟨hfront, hback⟩ := trim_parts h
  have h1 : (l ++ [' ']).dropWhile isSpaceChar = l ++ [' '] :=
    dropWhile_append_eq_self hfront hne
  have hrev : (l ++ [' ']).reverse = ' ' :: l.reverse := by
    rw [List.reverse_append]; rfl
  unfold stripChars
  rw [h1, hrev, List.dropWhile_cons, if_pos (by decide), hback,
    List.reverse_reverse]

/-- A space between two stripped non-empty lists survives stripping. -/
theorem stripChars_mid {F L : List Char} (hF : stripChars F = F)
    (hL : stripChars L = L) (hFne : F ≠ []) (hLne : L ≠ []) :
    stripChars (F ++ ' ' :: L) = F ++ ' ' :: L := by
  obtain ⟨hFf, _⟩ := trim_parts hF
  obtain ⟨_, hLb⟩ := trim_parts hL
  have h1 : (F ++ ' ' :: L).dropWhile isSpaceChar = F ++ ' ' :: L :=
    dropWhile_append_eq_self hFf hFne
  have hrev : (F ++ ' ' :: L).reverse = L.reverse ++ ' ' :: F.reverse := by
    rw [List.reverse_append, List.reverse_cons, List.append_assoc]
    rfl
  have hLrev_ne : L.reverse ≠ [] := by
    simpa [List.reverse_eq_nil_iff] using hLne
  have h2 : (L.reverse ++ ' ' :: F.reverse).dropWhile isSpaceChar =
      L.reverse ++ ' ' :: F.reverse :=
    dropWhile_append_eq_self hLb hLrev_ne
  unfold stripChars
  rw [h1, hrev, h2, ← hrev, List.reverse_reverse]

theorem data_ne_nil_of_ne_empty {s : String} (h : s ≠ "") : s.data ≠ [] := by
  intro hc
  exact h (String.ext hc)

/-- pyStrip over a trailing-space append. -/
theorem pyStrip_append_space {s : String} (h : pyStrip s = s)
    (hne : s ≠ "") : pyStrip (s ++ " ") = s := by
  have hdata : stripChars s.data = s.data := congrArg String.data h
  apply String.ext
  show stripChars (s ++ " ").data = s.data
  rw [String.data_append]
  exact stripChars_append_space hdata (data_ne_nil_of_ne_empty hne)

/-- pyStrip over a leading-space prepend. -/
theorem pyStrip_space_append {s : String} (h : pyStrip s = s) :
    pyStrip (" " ++ s) = s := by
  have hdata : stripChars s.data = s.data := congrArg String.data h
  apply String.ext
  show stripChars (" " ++ s).data = s.data
  rw [String.data_append]
  show stripChars (' ' :: s.data) = s.data
  rw [stripChars_cons_space, hdata]

/-- pyStrip over first-space-last when both parts are stripped and
non-empty. -/
theorem pyStrip_mid {f l : String} (hf : pyStrip f = f)
    (hl : pyStrip l = l) (hfne : f ≠ "") (hlne : l ≠ "") :
    pyStrip (f ++ " " ++ l) = f ++ " " ++ l := by
  have hfd : stripChars f.data = f.data := congrArg String.data hf
  have hld : stripChars l.data = l.data := congrArg String.data hl
  apply String.ext
  show stripChars (f ++ " " ++ l).data = (f ++ " " ++ l).data
  rw [String.data_append, String.data_append]
  have hassoc : f.data ++ " ".data ++ l.data = f.data ++ ' ' :: l.data := by
    rw [List.append_assoc]; rfl
  rw [hassoc]
  exact stripChars_mid hfd hld (data_ne_nil_of_ne_empty hfne)
    (data_ne_nil_of_ne_empty hlne)

theorem str_append_ne_empty_left {a : String} (b : String) (h : a ≠ "") :
    a ++ b ≠ "" := by
  intro hc
  apply h
  have hd := congrArg String.data hc
  rw [String.data_append] at hd
  have : a.data = [] := (List.append_eq_nil.mp hd).1
  exact String.ext this

/-- joinWithSpace of a list headed by a non-empty part is non-empty. -/
theorem joinWithSpace_ne_empty {v : String} (rest : List String)
    (h : v ≠ "") : joinWithSpace (v :: rest) ≠ "" := by
  cases rest with
  | nil => simpa [joinWithSpace] using h
  | cons q r =>
    show v ++ " " ++ joinWithSpace (q :: r) ≠ ""
    exact str_append_ne_empty_left _ (str_append_ne_empty_left _ h)

theorem append_space_ne_empty {a : String} (b : String) (h : a ≠ "") :
    a ++ " " ++ b ≠ "" :=
  str_append_ne_empty_left b (str_append_ne_empty_left " " h)

@[simp] theorem pyStrip_empty : pyStrip "" = "" := rfl

/-- Witness for claim_C10_address: a record with an empty address list
produces five empty-string fields. -/
theorem claim_C10_witness :
    (parse_npi_result { number := some "1234567890" }).address = "" ∧
    (parse_npi_result { number := some "1234567890" }).city = "" ∧
    (parse_npi_result { number := some "1234567890" }).state = "" ∧
    (parse_npi_result { number := some "1234567890" }).postal_code = "" ∧
    (parse_npi_result { number := some "1234567890" }).phone = "" :=
  (claim_C10_address { number := some "1234567890" }).2.2 rfl

/-- A raw API record carrying all three authorized-official name parts. -/
def recordWithMiddleName : NpiResult :=
  { number := some "1234567890",
    basic := { authorized_official_first_name := some "Ann",
               authorized_official_middle_name := some "Bea",
               authorized_official_last_name := some "Cole" } }

/-- C5 counterexample: the claim says both normalizers join the non-empty
parts in first, middle, last order.  The live-API normalizer never reads
the middle-name key: with parts Ann / Bea / Cole it produces "Ann Cole",
not the claimed "Ann Bea Cole". -/
theorem claim_C5_counterexample :
    (parse_npi_result recordWithMiddleName).authorized_official =
      some "Ann Cole" ∧
    (parse_npi_result recordWithMiddleName).authorized_official ≠
      specOfficialJoin ["Ann", "Bea", "Cole"] := by
  refine ⟨by decide, by decide⟩

/-- A name part is clean when, if present, it is non-empty, already
whitespace-stripped, and not the string "nan". -/
def CleanPart (o : Option String) : Prop :=
  ∀ v, o = some v → pyStrip v = v ∧ v ≠ "" ∧ v ≠ "nan"

/-- C5 amended: over every combination of clean name parts (present or
absent, absent parts read back as empty strings): the live-API normalizer
joins only first and last — the middle part never contributes — yielding
the single-space join of the non-empty parts among first and last, or
None when both are absent; the bulk-extract normalizer yields the
single-space join of the non-empty parts of first, middle, last when
first or last is present, and None when first and last are both absent,
even if middle is present. -/
theorem claim_C5_amended (f m l : Option String)
    (hf : CleanPart f) (hm : CleanPart m) (hl : CleanPart l) :
    apiOfficial (f.getD "") (l.getD "") =
      specOfficialJoin [f.getD "", l.getD ""] ∧
    csvOfficial (.strv (f.getD "")) (.strv (m.getD "")) (.strv (l.getD "")) =
      (if f.getD "" ≠ "" ∨ l.getD "" ≠ ""
       then specOfficialJoin [f.getD "", m.getD "", l.getD ""]
       else none) := by
  cases f with
  | none =>
    cases l with
    | none =>
      cases m with
      | none => refine ⟨by decide, by decide⟩
      | some vm =>
        obtain ⟨hm1, hm2, hm3⟩ := hm vm rfl
        constructor
        · simp [apiOfficial, specOfficialJoin]
        · simp [csvOfficial, truthyV, strV, specOfficialJoin]
    | some vl =>
      obtain ⟨hl1, hl2, hl3⟩ := hl vl rfl
      have hstrip : pyStrip (" " ++ vl) = vl := pyStrip_space_append hl1
      constructor
      · simp [apiOfficial, specOfficialJoin, hl2, hstrip, joinWithSpace]
      · cases m with
        | none =>
          simp [csvOfficial, truthyV, strV, specOfficialJoin, hl1, hl2, hl3,
            joinWithSpace]
        | some vm =>
          obtain ⟨hm1, hm2, hm3⟩ := hm vm rfl
          have hne : vm ++ " " ++ vl ≠ "" := append_space_ne_empty vl hm2
          simp [csvOfficial, truthyV, strV, specOfficialJoin, hl1, hl2, hl3,
            hm1, hm2, hm3, joinWithSpace, hne]
  | some vf =>
    obtain ⟨hf1, hf2, hf3⟩ := hf vf rfl
    cases l with
    | none =>
      have hstrip : pyStrip (vf ++ " ") = vf := pyStrip_append_space hf1 hf2
      constructor
      · simp [apiOfficial, specOfficialJoin, hf2, hstrip, joinWithSpace]
      · cases m with
        | none =>
          simp [csvOfficial, truthyV, strV, specOfficialJoin, hf1, hf2, hf3,
            joinWithSpace]
        | some vm =>
          obtain ⟨hm1, hm2, hm3⟩ := hm vm rfl
          have hne : vf ++ " " ++ vm ≠ "" := append_space_ne_empty vm hf2
          simp [csvOfficial, truthyV, strV, specOfficialJoin, hf1, hf2, hf3,
            hm1, hm2, hm3, joinWithSpace, hne]
    | some vl =>
      obtain ⟨hl1, hl2, hl3⟩ := hl vl rfl
      have hstrip : pyStrip (vf ++ " " ++ vl) = vf ++ " " ++ vl :=
        pyStrip_mid hf1 hl1 hf2 hl2
      have hne2 : vf ++ " " ++ vl ≠ "" := append_space_ne_empty vl hf2
      constructor
      · simp [apiOfficial, specOfficialJoin, hf2, hl2, hstrip, joinWithSpace]
      · cases m with
        | none =>
          simp [csvOfficial, truthyV, strV, specOfficialJoin, hf1, hf2, hf3,
            hl1, hl2, hl3, joinWithSpace, hne2]
        | some vm =>
          obtain ⟨hm1, hm2, hm3⟩ := hm vm rfl
          have hne3 : vf ++ " " ++ (vm ++ " " ++ vl) ≠ "" :=
            append_space_ne_empty (vm ++ " " ++ vl) hf2
          simp [csvOfficial, truthyV, strV, specOfficialJoin, hf1, hf2, hf3,
            hm1, hm2, hm3, hl1, hl2, hl3, joinWithSpace, hne3]

/-- Witness for claim_C5_amended: parts Ann / Bea / absent.  The API
normalizer gives "Ann", the bulk normalizer "Ann Bea". -/
theorem claim_C5_witness :
    apiOfficial "Ann" "" = specOfficialJoin ["Ann", ""] ∧
    csvOfficial (.strv "Ann") (.strv "Bea") (.strv "") =
      (if ("Ann" : String) ≠ "" ∨ ("" : String) ≠ ""
       then specOfficialJoin ["Ann", "Bea", ""] else none) :=
  claim_C5_amended (some "Ann") (some "Bea") none
    (by intro v hv; cases hv; exact ⟨rfl, by decide, by decide⟩)
    (by intro v hv; cases hv; exact ⟨rfl, by decide, by decide⟩)
    (by intro v hv; cases hv)

/-! ### The pagination-count claim -/

set_option maxRecDepth 8192

/-- C6 counterexample: a classification with exactly 200 records (one
full page).  The claim predicts ⌈200/200⌉ = 1 page request; the loop
cannot see that the first full page was final, so it issues a second
request that returns the empty page, for 2 requests in total. -/
theorem claim_C6_counterexample :
    fetchClassification (List.replicate 200 (0 : Nat)) =
      (List.replicate 200 0, 2) ∧
    (200 + 199) / 200 = 1 := by
  refine ⟨by decide, by decide⟩

/-- The per-classification loop on a clean stream: starting at a
200-aligned skip with total = skip, if the stream is shorter than the
1200-record ceiling and not a multiple of the page size, and enough fuel
remains, the loop returns the rest of the stream in order and issues one
request per remaining ⌈·/200⌉ page. -/
theorem loopGo_clean (stream : List α) : ∀ (fuel skip : Nat),
    skip % 200 = 0 → skip < stream.length → stream.length < 1200 →
    stream.length % 200 ≠ 0 → 1200 ≤ skip + 200 * fuel →
    loopGo stream fuel skip skip =
      (stream.drop skip, (stream.length - skip + 199) / 200) := by
  intro fuel
  induction fuel with
  | zero => intro skip h1 h2 h3 h4 h5; omega
  | succ f ih =>
    intro skip hmod hlt hlen hnm hfuel
    have hpos : 0 < stream.length - skip := by omega
    by_cases hshort : stream.length - skip < 200
    · have hresults : pageAt stream skip = stream.drop skip := by
        apply List.take_of_length_le
        rw [List.length_drop]
        simp [MAX_RESULTS_PER_REQUEST]
        omega
      have hlen_res : (pageAt stream skip).length = stream.length - skip := by
        rw [hresults, List.length_drop]
      have hisEmpty : (pageAt stream skip).isEmpty = false := by
        cases hpc : pageAt stream skip with
        | nil =>
          rw [hpc] at hlen_res
          simp at hlen_res
          omega
        | cons c t => rfl
      simp only [loopGo, hisEmpty, Bool.false_eq_true, if_false, hlen_res]
      rw [if_pos (by simp [MAX_RESULTS_PER_REQUEST]; omega)]
      rw [hresults]
      simp only [Prod.mk.injEq, true_and]
      omega
    · have h200 : 200 < stream.length - skip := by omega
      have hlen_res : (pageAt stream skip).length = 200 := by
        show ((stream.drop skip).take MAX_RESULTS_PER_REQUEST).length = 200
        rw [List.length_take, List.length_drop]
        simp [MAX_RESULTS_PER_REQUEST]
        omega
      have hisEmpty : (pageAt stream skip).isEmpty = false := by
        cases hpc : pageAt stream skip with
        | nil =>
          rw [hpc] at hlen_res
          simp at hlen_res
        | cons c t => rfl
      have hskip_le : skip + 200 ≤ 1000 := by omega
      have ihres := ih (skip + 200) (by omega) (by omega) hlen hnm (by omega)
      simp only [loopGo, hisEmpty, Bool.false_eq_true, if_false, hlen_res]
      rw [if_neg (by simp [MAX_RESULTS_PER_REQUEST])]
      rw [if_neg (by simp [MAX_RESULTS_PER_REQUEST, MAX_SKIP, MAX_TOTAL_RESULTS]; omega)]
      simp only [show MAX_RESULTS_PER_REQUEST = 200 from rfl]
      rw [ihres]
      simp only [Prod.mk.injEq]
      constructor
      · have hdd : stream.drop (skip + 200) = (stream.drop skip).drop 200 := by
          rw [List.drop_drop]
        rw [hdd]
        show ((stream.drop skip).take MAX_RESULTS_PER_REQUEST) ++
          ((stream.drop skip).drop 200) = stream.drop skip
        simp [MAX_RESULTS_PER_REQUEST]
      · omega

/-- C6 amended: for a classification whose registry holds a stream of
fewer than MAX_TOTAL_RESULTS records whose size is positive and not an
exact multiple of the 200-record page size, the loop issues exactly
⌈total/page_size⌉ page requests and returns the records concatenated in
request order (= stream order).  The counterexample forces the
exact-multiple exclusion: there the loop issues one extra empty-page
request; and totals at or beyond the 1200-record ceiling are cut off by
the MAX_REQUESTS/MAX_SKIP ceilings. -/
theorem claim_C6_amended (stream : List α) (h1 : 0 < stream.length)
    (h2 : stream.length < MAX_TOTAL_RESULTS)
    (h3 : stream.length % MAX_RESULTS_PER_REQUEST ≠ 0) :
    fetchClassification stream =
      (stream, (stream.length + 199) / MAX_RESULTS_PER_REQUEST) := by
  have h2a : stream.length < 1200 := h2
  have h3a : stream.length % 200 ≠ 0 := h3
  have := loopGo_clean stream 6 0 (by omega) (by omega) h2a h3a (by omega)
  show loopGo stream MAX_REQUESTS 0 0 = _
  rw [show MAX_REQUESTS = 6 from rfl, this]
  simp [MAX_RESULTS_PER_REQUEST]

/-- Witness for claim_C6_amended: a 300-record classification takes
exactly 2 page requests and yields the stream in order. -/
theorem claim_C6_witness :
    fetchClassification (List.replicate 300 (0 : Nat)) =
      (List.replicate 300 0, 2) := by
  have h := claim_C6_amended (List.replicate 300 (0 : Nat))
    (by simp) (by simp [MAX_TOTAL_RESULTS]) (by simp [MAX_RESULTS_PER_REQUEST])
  simpa [MAX_RESULTS_PER_REQUEST] using h

/-! ### The batch-submission claims -/

/-- Whether a chunk submission succeeded. -/
def exceptOk : Except String (List γ) → Bool
  | .ok _ => true
  | .error _ => false

/-- The successful payload of a chunk submission, if any. -/
def okPayload : Except String (List γ) → Option (List γ)
  | .ok r => some r
  | .error _ => none

/-- The responses of the successful chunks, in chunk order. -/
def okResponses (submit : List α → Except String (List γ))
    (cs : List (List α)) : List (List γ) :=
  cs.filterMap (fun c => okPayload (submit c))

/-- The summed created counts of the successful chunks. -/
def okCreatedSum (submit : List α → Except String (List γ))
    (cs : List (List α)) : Nat :=
  ((okResponses submit cs).map List.length).sum

/-- The number of erroring chunks. -/
def errCount (submit : List α → Except String (List γ))
    (cs : List (List α)) : Nat :=
  (cs.filter (fun c => !exceptOk (submit c))).length

theorem okResponses_cons_ok {submit : List α → Except String (List γ)}
    {c : List α} {resp : List γ} (cs : List (List α))
    (hs : submit c = .ok resp) :
    okResponses submit (c :: cs) = resp :: okResponses submit cs := by
  simp [okResponses, List.filterMap_cons, hs, okPayload]

theorem okResponses_cons_error {submit : List α → Except String (List γ)}
    {c : List α} {e : String} (cs : List (List α))
    (hs : submit c = .error e) :
    okResponses submit (c :: cs) = okResponses submit cs := by
  simp [okResponses, List.filterMap_cons, hs, okPayload]

theorem errCount_cons_ok {submit : List α → Except String (List γ)}
    {c : List α} {resp : List γ} (cs : List (List α))
    (hs : submit c = .ok resp) :
    errCount submit (c :: cs) = errCount submit cs := by
  simp [errCount, List.filter_cons, hs, exceptOk]

theorem errCount_cons_error {submit : List α → Except String (List γ)}
    {c : List α} {e : String} (cs : List (List α))
    (hs : submit c = .error e) :
    errCount submit (c :: cs) = errCount submit cs + 1 := by
  simp [errCount, List.filter_cons, hs, exceptOk]

/-- Closed form of the chunk loop: relative to its accumulator, it adds
one error per erroring chunk, appends one response per successful chunk
in order, and adds the created counts of the successful chunks. -/
theorem batchGo_spec {α γ : Type} (submit : List α → Except String (List γ)) :
    ∀ (cs : List (List α)) (acc : BatchResult γ),
    batchGo submit cs acc =
      { total_successes := acc.total_successes + okCreatedSum submit cs
        total_errors := acc.total_errors + errCount submit cs
        responses := acc.responses ++ okResponses submit cs } := by
  intro cs
  induction cs with
  | nil =>
    intro acc
    simp [batchGo, okCreatedSum, okResponses, errCount]
  | cons c cs ih =>
    intro acc
    cases hs : submit c with
    | ok resp =>
      simp only [batchGo, hs]
      rw [ih, okResponses_cons_ok cs hs, errCount_cons_ok cs hs]
      have hsum : okCreatedSum submit (c :: cs) =
          resp.length + okCreatedSum submit cs := by
        simp [okCreatedSum, okResponses_cons_ok cs hs]
      rw [hsum]
      simp only [BatchResult.mk.injEq]
      refine ⟨by omega, trivial, by simp⟩
    | error e =>
      simp only [batchGo, hs]
      rw [ih, okResponses_cons_error cs hs, errCount_cons_error cs hs]
      have hsum : okCreatedSum submit (c :: cs) = okCreatedSum submit cs := by
        simp [okCreatedSum, okResponses_cons_error cs hs]
      rw [hsum]
      simp only [BatchResult.mk.injEq]
      refine ⟨trivial, by omega, trivial⟩

/-- The concrete 10-record input of the five-chunk scenario. -/
def data10 : List Nat := [1, 2, 3, 4, 5, 6, 7, 8, 9, 10]

/-- A downstream endpoint that fails exactly on the third of the five
2-record chunks of data10 and otherwise reports every record created. -/
def submitFailsThird (c : List Nat) : Except String (List Nat) :=
  if c = [5, 6] then .error "boom" else .ok c

/-- C8: with chunk submissions that may raise, batch_create_rehabs adds
exactly one to total_errors per erroring chunk (never the chunk size),
does not retry or split a failing chunk and continues with the rest,
sums only the successful chunks' created counts, appends exactly one
response per successful chunk in order, and (being a total function of
the submission outcomes) lets no exception propagate; in particular, for
the five 2-record chunks of data10 with only the third chunk failing, the
result is 1 error, 8 successes and exactly 4 responses in order. -/
theorem claim_C8_batch :
    (∀ (α γ : Type) (submit : List α → Except String (List γ))
      (cs : List (List α)),
      batchGo submit cs ⟨0, 0, []⟩ =
        ⟨okCreatedSum submit cs, errCount submit cs,
          okResponses submit cs⟩) ∧
    batch_create_rehabs submitFailsThird data10 2 =
      { total_successes := 8, total_errors := 1,
        responses := [[1, 2], [3, 4], [7, 8], [9, 10]] } := by
  constructor
  · intro α γ submit cs
    rw [batchGo_spec]
    simp
  · decide

/-- Count form: every chunk lands in exactly one of the error counter or
the response list. -/
theorem batchGo_partition {α γ : Type}
    (submit : List α → Except String (List γ)) :
    ∀ (cs : List (List α)) (acc : BatchResult γ),
    (batchGo submit cs acc).total_errors +
      (batchGo submit cs acc).responses.length =
    acc.total_errors + acc.responses.length + cs.length := by
  intro cs
  induction cs with
  | nil => intro acc; simp [batchGo]
  | cons c cs ih =>
    intro acc
    cases hs : submit c with
    | ok resp =>
      rw [batchGo, hs, ih]
      simp
      omega
    | error e =>
      rw [batchGo, hs, ih]
      simp
      omega

/-- The chunk count of the slicing loop is ⌈n / size⌉ when fuel covers
the list. -/
theorem chunksGo_length {α : Type} (size : Nat) (hsize : 0 < size) :
    ∀ (fuel : Nat) (l : List α), l.length ≤ fuel →
    (chunksGo size fuel l).length = (l.length + size - 1) / size := by
  intro fuel
  induction fuel with
  | zero =>
    intro l hl
    have hnil : l = [] := List.length_eq_zero.mp (by omega)
    subst hnil
    simp [chunksGo]
    exact (Nat.div_eq_of_lt (by omega)).symm
  | succ f ih =>
    intro l hl
    cases l with
    | nil =>
      simp [chunksGo]
      exact (Nat.div_eq_of_lt (by omega)).symm
    | cons a rest =>
      have hdrop : ((a :: rest).drop size).length = (a :: rest).length - size := by
        rw [List.length_drop]
      have hih := ih ((a :: rest).drop size) (by
        rw [hdrop]
        simp only [List.length_cons] at hl ⊢
        omega)
      rw [show chunksGo size (f + 1) (a :: rest) =
        (a :: rest).take size :: chunksGo size f ((a :: rest).drop size)
        from rfl]
      rw [List.length_cons, hih, hdrop]
      simp only [List.length_cons]
      rcases le_or_lt size (rest.length + 1) with hc | hc
      · have h1 : rest.length + 1 - size + size - 1 = rest.length := by omega
        rw [h1]
        have h2 : rest.length + 1 + size - 1 = rest.length + size := by omega
        rw [h2, Nat.add_div_right _ hsize]
      · have h1 : rest.length + 1 - size = 0 := by omega
        rw [h1]
        have h2 : (0 + size - 1) / size = 0 := Nat.div_eq_of_lt (by omega)
        rw [h2]
        have h3 : (rest.length + 1 + size - 1) / size = 1 :=
          Nat.div_eq_of_lt_le (by omega) (by omega)
        rw [h3]

/-- C9: for every input list and positive chunk size, total_errors plus
the number of responses equals the number of chunks ⌈len(data)/size⌉
(0 for empty data): every chunk contributes to exactly one of the error
counter or the responses list. -/
theorem claim_C9_partition {α γ : Type}
    (submit : List α → Except String (List γ)) (data : List α)
    (chunk_size : Nat) (h : 0 < chunk_size) :
    (batch_create_rehabs submit data chunk_size).total_errors +
      (batch_create_rehabs submit data chunk_size).responses.length =
    (data.length + chunk_size - 1) / chunk_size := by
  unfold batch_create_rehabs chunksOf
  rw [if_neg (by omega)]
  rw [batchGo_partition]
  simp
  exact chunksGo_length chunk_size h data.length data (le_refl _)

/-- Witness for claim_C9_partition: the five-chunk scenario has
1 + 4 = ⌈10/2⌉ = 5. -/
theorem claim_C9_witness :
    (batch_create_rehabs submitFailsThird data10 2).total_errors +
      (batch_create_rehabs submitFailsThird data10 2).responses.length =
    (data10.length + 2 - 1) / 2 :=
  claim_C9_partition submitFailsThird data10 2 (by omega)

end RehabIngestion
